import Mathlib

/-!
Verification development for the chai-online chess client
(src/chaionline: client.py, play.py, agent.py, enumerations.py, exceptions.py).

The Python code is shallowly embedded: pure functions become Lean functions,
the stateful client becomes explicit state passing over a `ClientState`
record, wall-clock time becomes a natural-number timestamp (seconds) attached
to each line arriving on a stream, and Python exceptions become an explicit
`Exc` sum propagated through result types.  The external collaborators
(the HTTP transport, the json decoder, and the python-chess board engine)
are modelled at their observed interfaces: a stream is a list of timed lines
already classified by the json decoder, and the board engine is a
`BoardModel` record of oracles (terminal detection, result string, legal
moves) over the stack of pushed move tokens, which is exactly how play.py
consumes it.
-/

/-- Color enum from enumerations.py. -/
inductive Color where
  | WHITE
  | BLACK
deriving DecidableEq, Repr

/-- GameResult enum from enumerations.py. -/
inductive GameResult where
  | WIN
  | LOSS
  | DRAW
deriving DecidableEq, Repr

/-- Exceptions from exceptions.py, plus the two exception kinds raised by
external libraries on the code paths under study: JSONDecodeError (raised by
json.loads on a malformed line) and InvalidMoveError (raised by
chess.Move.from_uci on a syntactically malformed token). -/
inductive Exc where
  | ResponseError
  | LoadConfigError
  | GameStartTimeout
  | GameSearchTimeout
  | StreamItemError
  | GameError
  | GameSearchMaxTries
  | GameDataParseError
  | JSONDecodeError
  | InvalidMoveError
deriving DecidableEq, Repr

/-- Outcome of one call of a blocking loop: a returned value, a raised
exception, or blocking forever waiting on a stream that yields nothing
further (the Python loops only re-check their deadline after a line
arrives, so an exhausted stream means the call never returns). -/
inductive Res (α : Type) where
  | ok (a : α)
  | exc (e : Exc)
  | blocked
deriving DecidableEq, Repr

/-- GameData from client.py: session id plus the two classified colors. -/
structure GameData where
  id : String
  my_color : Color
  opponent_color : Color
deriving DecidableEq, Repr

/-- Python truthiness of the value returned by white_moved / black_moved:
None and the empty string are falsy, any other string is truthy. -/
def pyTruthy : Option String → Bool
  | none => false
  | some s => !(s == "")

/-- client.py white_moved: returns moves[-1] when the move list has odd
length (so the newest move was made by white), otherwise None.  The Python
code indexes moves[-1]; every call site passes the result of
str.split(" "), which is never empty, so getLastD is exact there. -/
def white_moved (moves : List String) : Option String :=
  if moves.length % 2 = 1 then some (moves.getLastD "") else none

/-- client.py black_moved: returns moves[-1] when the move list has even
length (so the newest move was made by black), otherwise None. -/
def black_moved (moves : List String) : Option String :=
  if moves.length % 2 = 0 then some (moves.getLastD "") else none

/-- A decoded item of the per-game event stream, as inspected by
wait_for_opponent_move: an item of type gameState carrying its
space-separated moves string, or an item of any other type. -/
inductive Item where
  | gameState (moves : String)
  | other
deriving DecidableEq, Repr

/-- One line of the per-game event stream as the Python loop sees it after
next(lines).decode: an empty keep-alive line (falsy, skipped before any
json decoding), a line json.loads fails on, or a decoded item. -/
inductive Line where
  | empty
  | malformed (s : String)
  | item (i : Item)
deriving DecidableEq, Repr

/-- Helper for pySplitSpace: walks the character list, cutting at each
space, accumulating the current token in reverse. -/
def splitSpaceAux : List Char → List Char → List String
  | [], acc => [String.mk acc.reverse]
  | c :: cs, acc =>
    if c = ' ' then String.mk acc.reverse :: splitSpaceAux cs []
    else splitSpaceAux cs (c :: acc)

/-- Python str.split(" ") with the literal one-space separator, as used on
the moves field: splits at every single space, keeping empty tokens, and
yields the one-element list containing the empty string on empty input.
This agrees with String.splitOn " " but is defined by structural recursion
so that concrete instances evaluate inside the kernel. -/
def pySplitSpace (s : String) : List String :=
  splitSpaceAux s.toList []

/-- The test guarding the two return statements of wait_for_opponent_move:
opponent_color == Color.WHITE and white_moved(moves), or
opponent_color == Color.BLACK and black_moved(moves), with Python
truthiness on the returned token. -/
def stateQualifies (opp : Color) (moves : List String) : Bool :=
  (decide (opp = Color.WHITE) && pyTruthy (white_moved moves)) ||
  (decide (opp = Color.BLACK) && pyTruthy (black_moved moves))

/-- The abort budget self._game_abort_time = 300 from GameClient. -/
def gameAbortTime : Nat := 300

/-- The while-loop of GameClient.wait_for_opponent_move.  t0 is the
time_start captured at call entry, now is the wall clock when the loop
condition is evaluated (initially t0; after a line is processed it is that
line's arrival time, since everything between two reads is instantaneous
at the one-second granularity of the model).  The loop condition
(time() - time_start) < 300 is checked before each blocking read; a
malformed line makes json.loads raise JSONDecodeError, which propagates.
Returns the result together with the wall clock and the unread rest of
the stream. -/
def waitLoop (opp : Color) (t0 : Nat) :
    Nat → List (Nat × Line) → Res String × Nat × List (Nat × Line)
  | now, [] =>
    if now - t0 < gameAbortTime then (.blocked, now, [])
    else (.exc .GameError, now, [])
  | now, (t, l) :: rest =>
    if now - t0 < gameAbortTime then
      match l with
      | .empty => waitLoop opp t0 t rest
      | .malformed _ => (.exc .JSONDecodeError, t, rest)
      | .item .other => waitLoop opp t0 t rest
      | .item (.gameState s) =>
        let moves := pySplitSpace s
        if stateQualifies opp moves then (.ok (moves.getLastD ""), t, rest)
        else waitLoop opp t0 t rest
    else (.exc .GameError, now, (t, l) :: rest)

/-- GameClient.wait_for_opponent_move: captures time_start = time() at call
entry (so the 300-second budget is measured from the start of each call)
and runs the read loop on the per-game stream. -/
def waitForOpponentMove (gd : GameData) (now : Nat) (evs : List (Nat × Line)) :
    Res String × Nat × List (Nat × Line) :=
  waitLoop gd.opponent_color now now evs

/-- An HTTP POST issued by the client, as far as the claims observe them:
a move submission (api/bot/game/id/move/m) or a resignation
(api/bot/game/id/resign). -/
inductive PostReq where
  | move (gameId mv : String)
  | resignReq (gameId : String)
deriving DecidableEq, Repr

/-- The mutable state of a GameClient: the _game_event_streams registry
mapping game id to stream handle, a counter supplying the identity of the
next freshly opened HTTP stream (each self.get(..., stream=True) call
yields a new live subscription, modelled by a fresh handle number), and
the list of POSTs sent so far. -/
structure ClientState where
  streams : List (String × Nat)
  nextHandle : Nat
  posted : List PostReq
deriving DecidableEq, Repr

/-- Python dict lookup game_id in self._game_event_streams. -/
def dictGet (k : String) (d : List (String × Nat)) : Option Nat :=
  (d.find? (fun p => p.1 == k)).map (fun p => p.2)

/-- Python dict pop: drops the entry for k (dict keys are unique). -/
def dictRemove (k : String) (d : List (String × Nat)) : List (String × Nat) :=
  d.filter (fun p => !(p.1 == k))

/-- Python dict assignment d[k] = v, modelled up to entry order (only
lookups of the registry are observed downstream). -/
def dictInsert (k : String) (v : Nat) (d : List (String × Nat)) :
    List (String × Nat) :=
  (k, v) :: dictRemove k d

/-- GameClient._get_game_event_stream: return the registry entry for
game_id if present; on KeyError open a fresh stream
(api/bot/game/stream/id) and return its line iterator.  The source does
not insert the fresh handle into the registry. -/
def getGameEventStream (st : ClientState) (gameId : String) :
    Nat × ClientState :=
  match dictGet gameId st.streams with
  | some h => (h, st)
  | none => (st.nextHandle, { st with nextHandle := st.nextHandle + 1 })

/-- The registration step of GameClient.find_opponent and challenge_ai:
self._game_event_streams[new_game_id] = self._get_game_event_stream(new_game_id). -/
def registerStream (st : ClientState) (gameId : String) : ClientState :=
  let r := getGameEventStream st gameId
  { r.2 with streams := dictInsert gameId r.1 r.2.streams }

/-- GameClient._game_over: self._game_event_streams.pop(game_id).  The
Python pop without default raises KeyError on an absent id; its only
caller, resign, guards on presence, so the removal is total here. -/
def gameOver (st : ClientState) (gameId : String) : ClientState :=
  { st with streams := dictRemove gameId st.streams }

/-- GameClient.resign: if the id is in the stream registry, POST the
resignation and call _game_over; otherwise do nothing.  No GameResult is
computed anywhere in this function (its result type is just the client
state). -/
def resign (st : ClientState) (gd : GameData) : ClientState :=
  if (dictGet gd.id st.streams).isSome then
    gameOver
      { st with posted := st.posted ++ [PostReq.resignReq gd.id] } gd.id
  else st

/-- GameClient.make_move: POST api/bot/game/id/move/m. -/
def makeMove (st : ClientState) (gd : GameData) (mv : String) : ClientState :=
  { st with posted := st.posted ++ [PostReq.move gd.id mv] }

/-- Whether two characters name a board square: file a-h, rank 1-8. -/
def isSquare (f r : Char) : Bool :=
  ('a' ≤ f && f ≤ 'h') && ('1' ≤ r && r ≤ '8')

/-- Syntactic validity of a UCI move token as accepted by
chess.Move.from_uci: from-square and to-square, an optional promotion
piece letter, or the null move 0000. -/
def isUci (s : String) : Bool :=
  match s.toList with
  | [a, b, c, d] => (isSquare a b && isSquare c d) || s == "0000"
  | [a, b, c, d, p] =>
    isSquare a b && isSquare c d &&
      (p == 'q' || p == 'r' || p == 'b' || p == 'n')
  | _ => false

/-- chess.Move.from_uci: parses the token, raising
InvalidMoveError (a ValueError) on a syntactically malformed token.  Only
syntax is checked; no board is consulted. -/
def moveFromUci (s : String) : Except Exc String :=
  if isUci s then .ok s else .error .InvalidMoveError

/-- The external python-chess board engine, at the interface play.py
consumes: terminal detection (board.is_game_over), the result string
(board.result: 1-0, 0-1, 1/2-1/2), and the legal move set
(board.legal_moves), all as functions of the stack of moves pushed so far.
The local board itself is that stack (board.push appends and, per the
python-chess contract, performs no legality check). -/
structure BoardModel where
  isGameOver : List String → Bool
  result : List String → String
  legalMoves : List String → List String

/-- The result computation at the end of PlayOnline._loop: DRAW on
1/2-1/2; otherwise, for white WIN exactly on 1-0, for black WIN exactly
on 0-1, LOSS otherwise. -/
def computeResult (myColor : Color) (res : String) : GameResult :=
  if res = "1/2-1/2" then .DRAW
  else if myColor = Color.WHITE then
    (if res = "1-0" then .WIN else .LOSS)
  else
    (if res = "0-1" then .WIN else .LOSS)

/-- The own-move block of PlayOnline._loop (both the opening block for
white and the in-loop block): move = self._player.step(board);
board.push(chess.Move.from_uci(move)); self._client.make_move(...).
A token from_uci rejects raises before anything is pushed or sent; an
accepted token is pushed and transmitted.  No legality check against the
board occurs between selection and transmission. -/
def ownTurnStep (st : ClientState) (gd : GameData)
    (agent : List String → String) (board : List String) :
    Except Exc (List String × ClientState) :=
  let m := agent board
  match moveFromUci m with
  | .error e => .error e
  | .ok mv => .ok (board ++ [mv], makeMove st gd mv)

/-- The while-loop of PlayOnline._loop, fuel-indexed (fuel 0 stands for a
loop that never exits on its own).  Each iteration: wait for the opponent
move (an exception there propagates and ends the loop with no result),
push it to the local board, break to the result computation if the board
is terminal, otherwise select, push and transmit the own move and check
for terminality again.  Reaching the result computation produces ok r
where r is also the value passed to self._player.result_was.  Returns the
outcome, the final local board, and the final client state. -/
def gameLoop (bm : BoardModel) (agent : List String → String)
    (gd : GameData) :
    Nat → List String → ClientState → List (Nat × Line) → Nat →
    Res GameResult × List String × ClientState
  | 0, board, st, _, _ => (.blocked, board, st)
  | fuel + 1, board, st, evs, now =>
    match waitForOpponentMove gd now evs with
    | (.exc e, _, _) => (.exc e, board, st)
    | (.blocked, _, _) => (.blocked, board, st)
    | (.ok opMove, now2, evs2) =>
      match moveFromUci opMove with
      | .error e => (.exc e, board, st)
      | .ok mv =>
        let board2 := board ++ [mv]
        if bm.isGameOver board2 then
          (.ok (computeResult gd.my_color (bm.result board2)), board2, st)
        else
          match ownTurnStep st gd agent board2 with
          | .error e => (.exc e, board2, st)
          | .ok (board3, st2) =>
            if bm.isGameOver board3 then
              (.ok (computeResult gd.my_color (bm.result board3)), board3, st2)
            else gameLoop bm agent gd fuel board3 st2 evs2 now2

/-- PlayOnline._loop after find_game: a fresh local board; if my color is
white the opening move is selected, pushed and transmitted; then the
turn-taking loop runs and, on natural termination, the computed
GameResult is handed to the agent (the ok value of the outcome). -/
def playLoop (bm : BoardModel) (agent : List String → String)
    (gd : GameData) (fuel : Nat) (st : ClientState)
    (evs : List (Nat × Line)) (now : Nat) :
    Res GameResult × List String × ClientState :=
  let board : List String := []
  if gd.my_color = Color.WHITE then
    match ownTurnStep st gd agent board with
    | .error e => (.exc e, board, st)
    | .ok (board2, st2) => gameLoop bm agent gd fuel board2 st2 evs now
  else gameLoop bm agent gd fuel board st evs now

/-- One side object of the gameFull payload, at the keys
_determine_colors inspects: an optional id and an optional aiLevel. -/
structure SideInfo where
  id : Option String
  aiLevel : Option Nat
deriving DecidableEq, Repr

/-- GameClient._determine_colors: if both sides carry an id, the side
whose id equals the account id is mine (white checked first); otherwise
the side carrying aiLevel is the Lichess AI, so I am the other side
(black checked first); any remaining payload raises GameDataParseError. -/
def determineColors (accountId : String) (white black : SideInfo) :
    Except Exc (Color × Color) :=
  if white.id.isSome ∧ black.id.isSome then
    if white.id = some accountId then .ok (Color.WHITE, Color.BLACK)
    else if black.id = some accountId then .ok (Color.BLACK, Color.WHITE)
    else .error .GameDataParseError
  else
    if black.aiLevel.isSome then .ok (Color.WHITE, Color.BLACK)
    else if white.aiLevel.isSome then .ok (Color.BLACK, Color.WHITE)
    else .error .GameDataParseError

/-- One line of the global event feed (api/stream/event) as the
session-finder loops see it.  Unlike wait_for_opponent_move, both
_wait_for_game_start and _search_for_game apply json.loads to the raw
line BEFORE the truthiness check (update = json.loads(...); if update:),
so an empty keep-alive line — and any other line json.loads rejects —
raises JSONDecodeError there; the truthiness check only skips lines that
decode to a falsy JSON value (null, empty object and the like).  A line
is therefore: raw-empty (raises on decode), undecodable (raises on
decode), decoding to a falsy value (skipped), a challenge event, a
gameStart event, or any other decoded event type (skipped). -/
inductive FeedLine where
  | empty
  | malformedLine (s : String)
  | falsyItem
  | challengeEv (id : String)
  | gameStartEv (gameId : String)
  | otherEv
deriving DecidableEq, Repr

/-- The accept budget self._game_accept_timeout = 2.0 from GameClient. -/
def gameAcceptTimeout : Nat := 2

/-- GameClient._wait_for_game_start: opens a fresh global feed and loops
while (time() - start_time) < 2.0.  Each line is passed to json.loads
first, so an empty or undecodable line raises JSONDecodeError; a decoded
falsy value is skipped by the truthiness check; the game id of the first
gameStart event is returned and other decoded events are skipped; if the
deadline is found elapsed, GameStartTimeout is raised.  Returns the
result and the wall clock at return. -/
def waitForGameStart (t0 : Nat) :
    Nat → List (Nat × FeedLine) → Res String × Nat
  | now, [] =>
    if now - t0 < gameAcceptTimeout then (.blocked, now)
    else (.exc .GameStartTimeout, now)
  | now, (t, l) :: rest =>
    if now - t0 < gameAcceptTimeout then
      match l with
      | .empty => (.exc .JSONDecodeError, t)
      | .malformedLine _ => (.exc .JSONDecodeError, t)
      | .falsyItem => waitForGameStart t0 t rest
      | .gameStartEv gid => (.ok gid, t)
      | .challengeEv _ => waitForGameStart t0 t rest
      | .otherEv => waitForGameStart t0 t rest
    else (.exc .GameStartTimeout, now)

/-- GameClient._accept_challenge: POST the acceptance (not observed by
any claim, hence not threaded here) and wait for the game start on a
fresh global feed. -/
def acceptChallenge (now : Nat) (feed : List (Nat × FeedLine)) :
    Res String × Nat :=
  waitForGameStart now now feed

/-- GameClient._search_for_game: loop over a fresh global feed while
(time() - start_time) < search_timeout.  Each line is passed to
json.loads first, so an empty or undecodable line raises JSONDecodeError;
a decoded falsy value is skipped by the truthiness check; on a challenge
event the acceptance is attempted (acceptFeeds gives the fresh feed the
acceptance call reads), with only GameStartTimeout caught and the search
continued — any other exception from the acceptance propagates; other
decoded events are skipped; when the deadline is found elapsed,
GameSearchTimeout is raised.  Note that the timeout exception raised
here is GameSearchTimeout, while the docstring of the source function
documents GameStartTimeout. -/
def searchForGame (searchTimeout : Nat)
    (acceptFeeds : String → List (Nat × FeedLine)) (t0 : Nat) :
    Nat → List (Nat × FeedLine) → Res String × Nat
  | now, [] =>
    if now - t0 < searchTimeout then (.blocked, now)
    else (.exc .GameSearchTimeout, now)
  | now, (t, l) :: rest =>
    if now - t0 < searchTimeout then
      match l with
      | .empty => (.exc .JSONDecodeError, t)
      | .malformedLine _ => (.exc .JSONDecodeError, t)
      | .falsyItem => searchForGame searchTimeout acceptFeeds t0 t rest
      | .challengeEv cid =>
        match acceptChallenge t (acceptFeeds cid) with
        | (.ok gid, now2) => (.ok gid, now2)
        | (.exc .GameStartTimeout, now2) =>
          searchForGame searchTimeout acceptFeeds t0 now2 rest
        | (.exc e, now2) => (.exc e, now2)
        | (.blocked, now2) => (.blocked, now2)
      | .gameStartEv _ => searchForGame searchTimeout acceptFeeds t0 t rest
      | .otherEv => searchForGame searchTimeout acceptFeeds t0 t rest
    else (.exc .GameSearchTimeout, now)

/-- The retry loop of GameClient.find_opponent: try _search_for_game and
break on success; the except clause catches only GameStartTimeout, in
which case search_count is incremented and GameSearchMaxTries is raised
once search_count >= n_search_attempts; any other exception propagates.
searchFeeds k is the fresh global feed read by the k-th search attempt.
The loop runs at most nAttempts + 1 iterations, which bounds the fuel. -/
def findOpponentGo (searchTimeout nAttempts : Nat)
    (searchFeeds : Nat → List (Nat × FeedLine))
    (acceptFeeds : String → List (Nat × FeedLine)) :
    Nat → Nat → Nat → Res String
  | _, _, 0 => .blocked
  | searchCount, now, fuel + 1 =>
    match searchForGame searchTimeout acceptFeeds now now
        (searchFeeds searchCount) with
    | (.ok gid, _) => .ok gid
    | (.exc .GameStartTimeout, now2) =>
      if nAttempts ≤ searchCount + 1 then .exc .GameSearchMaxTries
      else findOpponentGo searchTimeout nAttempts searchFeeds acceptFeeds
        (searchCount + 1) now2 fuel
    | (.exc e, _) => .exc e
    | (.blocked, _) => .blocked

/-- The search phase of GameClient.find_opponent (on success the source
then registers the stream, modelled by registerStream, and parses the
game data, modelled by determineColors). -/
def findOpponent (searchTimeout nAttempts : Nat)
    (searchFeeds : Nat → List (Nat × FeedLine))
    (acceptFeeds : String → List (Nat × FeedLine)) (now : Nat) :
    Res String :=
  findOpponentGo searchTimeout nAttempts searchFeeds acceptFeeds 0 now
    (nAttempts + 1)

/-- Outcome of a terminal chess game, the three values board.result can
encode for a finished game. -/
inductive Outcome where
  | whiteWins
  | blackWins
  | drawn
deriving DecidableEq, Repr

/-- The string board.result returns for each terminal outcome
(python-chess encoding). -/
def resultString : Outcome → String
  | .whiteWins => "1-0"
  | .blackWins => "0-1"
  | .drawn => "1/2-1/2"

/-- The side that won a terminal outcome, none for a draw. -/
def winningSide : Outcome → Option Color
  | .whiteWins => some Color.WHITE
  | .blackWins => some Color.BLACK
  | .drawn => none

/-- Modelled from the claim wording of C1: the parity of a move list
attributes its newest move to a color — odd length means WHITE just
moved, even length means BLACK just moved. -/
def newestMover (moves : List String) : Color :=
  if moves.length % 2 = 1 then Color.WHITE else Color.BLACK

/-- Modelled from the claim wording of C1: the last move token of the
first state-update whose newest move is attributed to the opponent color;
updates whose newest move belongs to the own color are skipped. -/
def specOpponentToken (opp : Color) : List (List String) → Option String
  | [] => none
  | m :: rest =>
    if newestMover m = opp then some (m.getLastD "")
    else specOpponentToken opp rest

/-- Modelled from the claim wording of C5, rule (a): both sides carry an
identity and the account id picks the side of the caller. -/
def claimRuleA (accountId : String) (w b : SideInfo) : Bool :=
  w.id.isSome && b.id.isSome &&
    (w.id == some accountId || b.id == some accountId)

/-- Modelled from the claim wording of C5, rule (b): the side of the
caller is the one not carrying an AI-difficulty marker, which classifies
the payload exactly when one side carries the marker and the other does
not. -/
def claimRuleB (w b : SideInfo) : Bool :=
  !(w.id.isSome && b.id.isSome) &&
    ((w.aiLevel.isSome && !b.aiLevel.isSome) ||
     (b.aiLevel.isSome && !w.aiLevel.isSome))

/-- Modelled from the claim wording of C2: the variant of the opponent
wait whose 300-second budget is measured once from session start
(sessionStart) instead of from the entry of each call. -/
def claimWaitSingleBudget (gd : GameData) (sessionStart now : Nat)
    (evs : List (Nat × Line)) : Res String × Nat × List (Nat × Line) :=
  waitLoop gd.opponent_color sessionStart now evs

/-- Modelled from the claim wording of C2: the turn-taking loop as the
claim describes it, identical to gameLoop except that every opponent
wait measures its deadline from the fixed session start. -/
def claimGameLoop (bm : BoardModel) (agent : List String → String)
    (gd : GameData) (sessionStart : Nat) :
    Nat → List String → ClientState → List (Nat × Line) → Nat →
    Res GameResult × List String × ClientState
  | 0, board, st, _, _ => (.blocked, board, st)
  | fuel + 1, board, st, evs, now =>
    match claimWaitSingleBudget gd sessionStart now evs with
    | (.exc e, _, _) => (.exc e, board, st)
    | (.blocked, _, _) => (.blocked, board, st)
    | (.ok opMove, now2, evs2) =>
      match moveFromUci opMove with
      | .error e => (.exc e, board, st)
      | .ok mv =>
        let board2 := board ++ [mv]
        if bm.isGameOver board2 then
          (.ok (computeResult gd.my_color (bm.result board2)), board2, st)
        else
          match ownTurnStep st gd agent board2 with
          | .error e => (.exc e, board2, st)
          | .ok (board3, st2) =>
            if bm.isGameOver board3 then
              (.ok (computeResult gd.my_color (bm.result board3)), board3, st2)
            else
              claimGameLoop bm agent gd sessionStart fuel board3 st2 evs2 now2

/-- Modelled from the claim wording of C2: the session loop under the
single-budget reading, opening move included. -/
def claimPlayLoop (bm : BoardModel) (agent : List String → String)
    (gd : GameData) (sessionStart fuel : Nat) (st : ClientState)
    (evs : List (Nat × Line)) (now : Nat) :
    Res GameResult × List String × ClientState :=
  let board : List String := []
  if gd.my_color = Color.WHITE then
    match ownTurnStep st gd agent board with
    | .error e => (.exc e, board, st)
    | .ok (board2, st2) =>
      claimGameLoop bm agent gd sessionStart fuel board2 st2 evs now
  else claimGameLoop bm agent gd sessionStart fuel board st evs now

/-- A stream line that never satisfies the return condition of the
opponent wait for the given opponent color: a keep-alive, an item of a
type other than gameState, or a gameState whose move-list parity and
token do not qualify.  A malformed line is excluded (it raises). -/
def nonQual (opp : Color) : Line → Bool
  | .empty => true
  | .malformed _ => false
  | .item .other => true
  | .item (.gameState s) => !stateQualifies opp (pySplitSpace s)

/-- A concrete board-engine instance for the C1 scenario: the game is
terminal once two moves are on the stack and ends drawn. -/
def bmC1 : BoardModel :=
  ⟨fun b => decide (2 ≤ b.length), fun _ => "1/2-1/2", fun _ => []⟩

/-- A concrete board-engine instance for the C2 run: the game is terminal
once four moves are on the stack and ends drawn. -/
def bmC2 : BoardModel :=
  ⟨fun b => decide (4 ≤ b.length), fun _ => "1/2-1/2", fun _ => []⟩

/-- The agent of the C2 run: opens with e2e4, then plays g1f3. -/
def agentC2 : List String → String :=
  fun b => if b.length = 0 then "e2e4" else "g1f3"

/-- The stream of the C2 run: the first opponent reply arrives 250
seconds into the session, a keep-alive arrives at 310 seconds, and the
second opponent reply arrives at 500 seconds, more than 300 seconds after
session start but less than 300 seconds after the second wait begins. -/
def evsC2 : List (Nat × Line) :=
  [(250, .item (.gameState "e2e4 e7e5")), (310, .empty),
   (500, .item (.gameState "e2e4 e7e5 g1f3 g8f6"))]

/-- A concrete board-engine instance used by the C2 witness (its game
never ends on its own). -/
def bmC2w : BoardModel := ⟨fun _ => false, fun _ => "*", fun _ => []⟩

/-- A concrete board-engine instance for the C4 witness run: terminal at
two stacked moves, drawn. -/
def bmC4 : BoardModel :=
  ⟨fun b => decide (2 ≤ b.length), fun _ => "1/2-1/2", fun _ => []⟩

/-- A concrete board-engine instance for the C8 run: terminal at two
stacked moves, drawn. -/
def bmC8 : BoardModel :=
  ⟨fun b => decide (2 ≤ b.length), fun _ => "1/2-1/2", fun _ => []⟩

/-- A concrete board-engine instance for the C9 run: from the starting
position (empty stack) the legal selections are e2e4, d2d4 and g1f3; the
token e7e5 is syntactically well formed but not currently legal. -/
def bmC9 : BoardModel :=
  ⟨fun _ => false, fun _ => "*",
   fun b => if b = [] then ["e2e4", "d2d4", "g1f3"] else []⟩

theorem dictGet_remove_self (k : String) (d : List (String × Nat)) :
    dictGet k (dictRemove k d) = none := by
  induction d with
  | nil => rfl
  | cons p rest ih =>
    rcases p with ⟨k2, v⟩
    by_cases h : k2 == k
    · simp only [dictRemove, List.filter_cons, h, Bool.not_true, if_neg]
      exact ih
    · simp only [dictRemove, List.filter_cons, h, Bool.not_false, if_pos]
      simp only [dictGet, List.find?_cons, h]
      exact ih

theorem dictGet_remove_ne (k k2 : String) (d : List (String × Nat))
    (h : k2 ≠ k) : dictGet k2 (dictRemove k d) = dictGet k2 d := by
  induction d with
  | nil => rfl
  | cons p rest ih =>
    rcases p with ⟨k3, v⟩
    by_cases h3 : k3 == k
    · have hne : (k3 == k2) = false := by
        have : k3 = k := by simpa using h3
        subst this
        simpa using fun hh => h hh.symm
      simpa [dictRemove, List.filter_cons, h3, dictGet, List.find?_cons, hne]
        using ih
    · by_cases h32 : k3 == k2
      · simp [dictRemove, List.filter_cons, h3, dictGet, List.find?_cons, h32]
      · simpa [dictRemove, List.filter_cons, h3, dictGet, List.find?_cons, h32]
          using ih

theorem dictGet_insert_self (k : String) (v : Nat)
    (d : List (String × Nat)) : dictGet k (dictInsert k v d) = some v := by
  simp [dictGet, dictInsert, List.find?_cons]

theorem ownTurnStep_eq (st : ClientState) (gd : GameData)
    (agent : List String → String) (board : List String) :
    ownTurnStep st gd agent board =
      if isUci (agent board) then
        .ok (board ++ [agent board], makeMove st gd (agent board))
      else .error .InvalidMoveError := by
  by_cases h : isUci (agent board) <;> simp [ownTurnStep, moveFromUci, h]

theorem ownTurnStep_streams (st : ClientState) (gd : GameData)
    (agent : List String → String) (board b2 : List String)
    (st2 : ClientState) (h : ownTurnStep st gd agent board = .ok (b2, st2)) :
    st2.streams = st.streams := by
  rw [ownTurnStep_eq] at h
  by_cases hu : isUci (agent board)
  · rw [if_pos hu] at h
    cases h
    rfl
  · rw [if_neg hu] at h
    cases h

theorem gameLoop_streams (bm : BoardModel) (agent : List String → String)
    (gd : GameData) :
    ∀ (fuel : Nat) (board : List String) (st : ClientState)
      (evs : List (Nat × Line)) (now : Nat),
      ((gameLoop bm agent gd fuel board st evs now).2.2).streams
        = st.streams := by
  intro fuel
  induction fuel with
  | zero => intro board st evs now; rfl
  | succ n ih =>
    intro board st evs now
    simp only [gameLoop]
    rcases hw : waitForOpponentMove gd now evs with ⟨r, now2, evs2⟩
    rcases r with opMove | e | _
    · dsimp only
      rcases hm : moveFromUci opMove with e | mv
      · rfl
      · dsimp only
        by_cases hover : bm.isGameOver (board ++ [mv]) = true
        · simp [hover]
        · rw [if_neg hover]
          rcases ho : ownTurnStep st gd agent (board ++ [mv]) with e | ⟨b3, st2⟩
          · rfl
          · have hst2 := ownTurnStep_streams st gd agent (board ++ [mv]) b3 st2 ho
            dsimp only
            by_cases hover2 : bm.isGameOver b3 = true
            · simp [hover2, hst2]
            · rw [if_neg hover2, ih b3 st2 evs2 now2, hst2]
    · rfl
    · rfl

/-- C3: with max_search_attempts = 1 and a search that finds no game
within search_timeout = 30 seconds (the feed carries only one
non-challenge decoded event, arriving after the deadline), find_opponent
fails — but with the uncaught GameSearchTimeout raised by
_search_for_game, not with
GameSearchMaxTries: the except clause of find_opponent catches only
GameStartTimeout (the exception the docstring of _search_for_game
documents, not the one it raises), so the retry counter and
GameSearchMaxTries are unreachable. -/
theorem c3_search_exhausted_exception :
    findOpponent 30 1 (fun _ => [(35, .otherEv)]) (fun _ => []) 0
      = .exc .GameSearchTimeout ∧
    Exc.GameSearchTimeout ≠ Exc.GameSearchMaxTries := by decide

/-- C4: the result computed at the end of the game loop is DRAW exactly
for a drawn terminal outcome regardless of the own color, WIN exactly
when the winning side equals the own color, and LOSS otherwise; and
every ok outcome of the loop — the value handed to the agent through
result_was — is exactly computeResult applied to the own color and the
result string of the final board. -/
theorem c4_result_correct :
    (∀ (o : Outcome) (c : Color),
      computeResult c (resultString o) =
        (match winningSide o with
         | none => GameResult.DRAW
         | some w => if w = c then GameResult.WIN else GameResult.LOSS)) ∧
    (∀ (bm : BoardModel) (agent : List String → String) (gd : GameData)
       (fuel : Nat) (board : List String) (st : ClientState)
       (evs : List (Nat × Line)) (now : Nat) (r : GameResult)
       (b2 : List String) (st2 : ClientState),
      gameLoop bm agent gd fuel board st evs now = (.ok r, b2, st2) →
      r = computeResult gd.my_color (bm.result b2)) := by
  constructor
  · intro o c
    cases o <;> cases c <;> rfl
  · intro bm agent gd fuel
    induction fuel with
    | zero =>
      intro board st evs now r b2 st2 h
      simp only [gameLoop, Prod.mk.injEq] at h
      exact absurd h.1 (by simp)
    | succ n ih =>
      intro board st evs now r b2 st2 h
      simp only [gameLoop] at h
      rcases hw : waitForOpponentMove gd now evs with ⟨rw0, now2, evs2⟩
      rw [hw] at h
      rcases rw0 with opMove | e | _
      · dsimp only at h
        rcases hm : moveFromUci opMove with e | mv
        · rw [hm] at h
          simp at h
        · rw [hm] at h
          dsimp only at h
          by_cases hover : bm.isGameOver (board ++ [mv]) = true
          · rw [if_pos hover] at h
            simp only [Prod.mk.injEq, Res.ok.injEq] at h
            obtain ⟨h1, h2, h3⟩ := h
            subst h2
            exact h1.symm
          · rw [if_neg hover] at h
            rcases ho : ownTurnStep st gd agent (board ++ [mv])
                with e | ⟨b3, stX⟩ <;> rw [ho] at h
            · simp at h
            · dsimp only at h
              by_cases hover2 : bm.isGameOver b3 = true
              · rw [if_pos hover2] at h
                simp only [Prod.mk.injEq, Res.ok.injEq] at h
                obtain ⟨h1, h2, h3⟩ := h
                subst h2
                exact h1.symm
              · rw [if_neg hover2] at h
                exact ih b3 stX evs2 now2 r b2 st2 h
      · simp at h
      · simp at h

/-- C5 counterexample: a payload in which neither side carries an id and
both sides carry an aiLevel marker is classifiable neither by the id rule
nor by the not-the-AI rule of the claim, so per the claim it must raise
GameDataParseError; the code instead returns (WHITE, BLACK). -/
theorem c5_both_ai_counterexample :
    determineColors "me" ⟨none, some 1⟩ ⟨none, some 2⟩
      = .ok (Color.WHITE, Color.BLACK) ∧
    claimRuleA "me" ⟨none, some 1⟩ ⟨none, some 2⟩ = false ∧
    claimRuleB ⟨none, some 1⟩ ⟨none, some 2⟩ = false :=
  ⟨rfl, rfl, rfl⟩

/-- C4 witness: a concrete run of the loop ends drawn and the value
reported to the agent equals computeResult of the final board. -/
theorem c4_result_correct_witness :
    GameResult.DRAW
      = computeResult Color.WHITE (bmC4.result ["e2e4", "e7e5"]) :=
  c4_result_correct.2 bmC4 (fun _ => "e2e4") ⟨"g1", .WHITE, .BLACK⟩ 2
    ["e2e4"] ⟨[], 0, []⟩ [(10, .item (.gameState "e2e4 e7e5"))] 0
    GameResult.DRAW ["e2e4", "e7e5"] ⟨[], 0, []⟩ rfl

/-- C5 amended: classification always returns distinct colors, exactly
one each of WHITE and BLACK; when both sides carry an id the matching id
picks the side (white checked first): a matching white id classifies the
caller as WHITE, else a matching black id classifies the caller as
BLACK; otherwise the caller is WHITE when black carries aiLevel (checked
first) and BLACK when only white does; a payload with both ids present
but neither matching, and a payload with ids not both present and
neither side carrying aiLevel, raise GameDataParseError. -/
theorem c5_color_classification :
    ∀ (acct : String) (w b : SideInfo),
      (∀ c1 c2, determineColors acct w b = .ok (c1, c2) →
        (c1 = Color.WHITE ∧ c2 = Color.BLACK) ∨
        (c1 = Color.BLACK ∧ c2 = Color.WHITE)) ∧
      (w.id.isSome = true → b.id.isSome = true → w.id = some acct →
        determineColors acct w b = .ok (Color.WHITE, Color.BLACK)) ∧
      (w.id.isSome = true → b.id.isSome = true →
        w.id ≠ some acct → b.id = some acct →
        determineColors acct w b = .ok (Color.BLACK, Color.WHITE)) ∧
      (¬ (w.id.isSome = true ∧ b.id.isSome = true) →
        b.aiLevel.isSome = true →
        determineColors acct w b = .ok (Color.WHITE, Color.BLACK)) ∧
      (¬ (w.id.isSome = true ∧ b.id.isSome = true) →
        b.aiLevel.isSome = false → w.aiLevel.isSome = true →
        determineColors acct w b = .ok (Color.BLACK, Color.WHITE)) ∧
      (w.id.isSome = true → b.id.isSome = true →
        w.id ≠ some acct → b.id ≠ some acct →
        determineColors acct w b = .error .GameDataParseError) ∧
      (¬ (w.id.isSome = true ∧ b.id.isSome = true) →
        w.aiLevel.isSome = false → b.aiLevel.isSome = false →
        determineColors acct w b = .error .GameDataParseError) := by
  intro acct w b
  refine ⟨?_, ?_, ?_, ?_, ?_, ?_, ?_⟩
  · intro c1 c2 h
    unfold determineColors at h
    split_ifs at h <;> simp only [Except.ok.injEq, Prod.mk.injEq] at h
    · exact Or.inl ⟨h.1.symm, h.2.symm⟩
    · exact Or.inr ⟨h.1.symm, h.2.symm⟩
    · exact Or.inl ⟨h.1.symm, h.2.symm⟩
    · exact Or.inr ⟨h.1.symm, h.2.symm⟩
  · intro hw hb hweq
    unfold determineColors
    rw [if_pos ⟨hw, hb⟩, if_pos hweq]
  · intro hw hb hwne hbeq
    unfold determineColors
    rw [if_pos ⟨hw, hb⟩, if_neg hwne, if_pos hbeq]
  · intro hids hbai
    unfold determineColors
    rw [if_neg hids, if_pos hbai]
  · intro hids hbai hwai
    unfold determineColors
    rw [if_neg hids, if_neg (by simp [hbai]), if_pos hwai]
  · intro hw hb hwne hbne
    unfold determineColors
    rw [if_pos ⟨hw, hb⟩, if_neg hwne, if_neg hbne]
  · intro hids hwai hbai
    unfold determineColors
    rw [if_neg hids, if_neg (by simp [hbai]), if_neg (by simp [hwai])]

/-- C5 witness: a white id matching the account classifies the caller as
WHITE; a black id matching (white id not matching) classifies the caller
as BLACK; with no ids and aiLevel on black only, the caller is WHITE;
with no ids and aiLevel on white only, the caller is BLACK. -/
theorem c5_color_classification_witness :
    determineColors "me" ⟨some "me", none⟩ ⟨some "you", none⟩
      = .ok (Color.WHITE, Color.BLACK) ∧
    determineColors "me" ⟨some "you", none⟩ ⟨some "me", none⟩
      = .ok (Color.BLACK, Color.WHITE) ∧
    determineColors "me" ⟨none, none⟩ ⟨none, some 3⟩
      = .ok (Color.WHITE, Color.BLACK) ∧
    determineColors "me" ⟨none, some 3⟩ ⟨none, none⟩
      = .ok (Color.BLACK, Color.WHITE) :=
  ⟨(c5_color_classification "me" ⟨some "me", none⟩ ⟨some "you", none⟩).2.1
     rfl rfl rfl,
   (c5_color_classification "me" ⟨some "you", none⟩ ⟨some "me", none⟩).2.2.1
     rfl rfl (by decide) rfl,
   (c5_color_classification "me" ⟨none, none⟩ ⟨none, some 3⟩).2.2.2.1
     (by decide) rfl,
   (c5_color_classification "me" ⟨none, some 3⟩ ⟨none, none⟩).2.2.2.2.1
     (by decide) rfl rfl⟩

/-- C7 counterexample: with an empty registry, two consecutive calls of
_get_game_event_stream for the same game id open two distinct fresh
streams (handles 0 and 1) — the open operation is not idempotent and two
live subscriptions for the id exist, against the claim. -/
theorem c7_double_open_counterexample :
    (getGameEventStream ⟨[], 0, []⟩ "g1").1 = 0 ∧
    (getGameEventStream (getGameEventStream ⟨[], 0, []⟩ "g1").2 "g1").1 = 1 ∧
    (0 : Nat) ≠ 1 := by decide

/-- C7 amended: _get_game_event_stream is idempotent only for ids present
in the registry — there it returns the registered handle and leaves the
state unchanged, so repeated calls reuse one subscription; for an absent
id every call opens a fresh unregistered stream, and it is the
registration step of find_opponent / challenge_ai that stores the first
fresh handle, after which lookups reuse it. -/
theorem c7_open_registered_idempotent :
    ∀ (st : ClientState) (gameId : String),
      (∀ h, dictGet gameId st.streams = some h →
        getGameEventStream st gameId = (h, st)) ∧
      (dictGet gameId st.streams = none →
        dictGet gameId (registerStream st gameId).streams
          = some st.nextHandle ∧
        getGameEventStream (registerStream st gameId) gameId
          = (st.nextHandle, registerStream st gameId)) := by
  intro st gameId
  constructor
  · intro h hh
    simp [getGameEventStream, hh]
  · intro hn
    have hreg : (registerStream st gameId).streams
        = dictInsert gameId st.nextHandle
            ({ st with nextHandle := st.nextHandle + 1 } : ClientState).streams := by
      simp [registerStream, getGameEventStream, hn]
    have hget : dictGet gameId (registerStream st gameId).streams
        = some st.nextHandle := by
      rw [hreg]
      exact dictGet_insert_self gameId st.nextHandle _
    exact ⟨hget, by simp [getGameEventStream, hget]⟩

/-- C7 witness: for a registry holding handle 0 for game g1, the open
operation returns handle 0 and leaves the client state unchanged. -/
theorem c7_open_registered_idempotent_witness :
    getGameEventStream ⟨[("g1", 0)], 1, []⟩ "g1"
      = (0, ⟨[("g1", 0)], 1, []⟩) :=
  (c7_open_registered_idempotent ⟨[("g1", 0)], 1, []⟩ "g1").1 0 rfl

/-- C9 counterexample: from the starting position of the board engine
bmC9 the token e7e5 is not among the currently legal moves, yet the
own-move block pushes it to the local board and transmits it to the
server (the move POST appears) without raising any error — legality is
never validated before transmission, against the claim. -/
theorem c9_illegal_move_sent_counterexample :
    ¬ ("e7e5" ∈ bmC9.legalMoves []) ∧
    ownTurnStep ⟨[("g1", 0)], 1, []⟩ ⟨"g1", .WHITE, .BLACK⟩
        (fun _ => "e7e5") []
      = .ok (["e7e5"], ⟨[("g1", 0)], 1, [PostReq.move "g1" "e7e5"]⟩) :=
  ⟨by decide, rfl⟩

/-- C9 amended: before transmission the selected token is checked only
syntactically, by chess.Move.from_uci — a malformed token raises
InvalidMoveError before anything is pushed or sent, while any
syntactically valid token is pushed to the local board and transmitted
via make_move regardless of its legality on the current board (the legal
move set is never consulted on this path). -/
theorem c9_only_syntax_checked :
    ∀ (st : ClientState) (gd : GameData) (agent : List String → String)
      (board : List String),
      (isUci (agent board) = true →
        ownTurnStep st gd agent board
          = .ok (board ++ [agent board], makeMove st gd (agent board))) ∧
      (isUci (agent board) = false →
        ownTurnStep st gd agent board = .error .InvalidMoveError) := by
  intro st gd agent board
  constructor <;> intro h <;> simp [ownTurnStep, moveFromUci, h]

/-- C9 witness: the syntactically valid token e2e4 is pushed and
transmitted. -/
theorem c9_only_syntax_checked_witness :
    ownTurnStep ⟨[], 0, []⟩ ⟨"g1", .WHITE, .BLACK⟩ (fun _ => "e2e4") []
      = .ok (["e2e4"], ⟨[], 0, [PostReq.move "g1" "e2e4"]⟩) :=
  (c9_only_syntax_checked ⟨[], 0, []⟩ ⟨"g1", .WHITE, .BLACK⟩
    (fun _ => "e2e4") []).1 (by decide)

/-- C10: resign with a GameData whose id is absent from the stream
registry is a complete no-op — the client state (registry and POST list)
is returned unchanged and in particular no resign request is posted;
when the id is present, resign posts exactly the resignation for that id,
removes that registry entry, and leaves every other registry entry
untouched.  Its result type carries no GameResult: none is computed. -/
theorem c10_resign_registry :
    ∀ (st : ClientState) (gd : GameData),
      (dictGet gd.id st.streams = none → resign st gd = st) ∧
      (∀ h, dictGet gd.id st.streams = some h →
        (resign st gd).posted = st.posted ++ [PostReq.resignReq gd.id] ∧
        dictGet gd.id (resign st gd).streams = none ∧
        ∀ k, k ≠ gd.id →
          dictGet k (resign st gd).streams = dictGet k st.streams) := by
  intro st gd
  constructor
  · intro h
    simp [resign, h]
  · intro h hh
    have hcond : (dictGet gd.id st.streams).isSome = true := by
      simp [hh]
    refine ⟨?_, ?_, ?_⟩
    · simp [resign, hcond, gameOver]
    · simp [resign, hcond, gameOver, dictGet_remove_self]
    · intro k hk
      simp [resign, hcond, gameOver, dictGet_remove_ne gd.id k _ hk]

/-- C10 witness: resigning game g1 with its stream registered posts the
resignation and empties its registry entry. -/
theorem c10_resign_registry_witness :
    (resign ⟨[("g1", 5)], 6, []⟩ ⟨"g1", .WHITE, .BLACK⟩).posted
      = [PostReq.resignReq "g1"] ∧
    dictGet "g1" (resign ⟨[("g1", 5)], 6, []⟩ ⟨"g1", .WHITE, .BLACK⟩).streams
      = none :=
  ⟨((c10_resign_registry ⟨[("g1", 5)], 6, []⟩ ⟨"g1", .WHITE, .BLACK⟩).2
      5 rfl).1,
   ((c10_resign_registry ⟨[("g1", 5)], 6, []⟩ ⟨"g1", .WHITE, .BLACK⟩).2
      5 rfl).2.1⟩

/-- C8 counterexample: a session over game g1 whose stream registry entry
is present runs to its natural terminal state and surfaces the outcome
DRAW, yet the registry entry (g1, handle 0) is still present in the final
client state — the subscription is not released at session end, against
the claim. -/
theorem c8_entry_survives_counterexample :
    playLoop bmC8 (fun _ => "e2e4") ⟨"g1", .WHITE, .BLACK⟩ 3
        ⟨[("g1", 0)], 1, []⟩ [(10, .item (.gameState "e2e4 e7e5"))] 0
      = (.ok .DRAW, ["e2e4", "e7e5"],
         ⟨[("g1", 0)], 1, [PostReq.move "g1" "e2e4"]⟩) ∧
    dictGet "g1"
        (⟨[("g1", 0)], 1, [PostReq.move "g1" "e2e4"]⟩ : ClientState).streams
      = some 0 :=
  ⟨by decide, rfl⟩

/-- C8 amended: the game loop never touches the stream registry — on
every outcome (natural terminal state, fatal error, or blocking) the
registry of the final client state equals the registry it started with;
the only operation that removes a registry entry is resign. -/
theorem c8_loop_preserves_registry :
    ∀ (bm : BoardModel) (agent : List String → String) (gd : GameData)
      (fuel : Nat) (st : ClientState) (evs : List (Nat × Line)) (now : Nat)
      (board : List String),
      ((gameLoop bm agent gd fuel board st evs now).2.2).streams
        = st.streams ∧
      ((playLoop bm agent gd fuel st evs now).2.2).streams = st.streams := by
  intro bm agent gd fuel st evs now board
  refine ⟨gameLoop_streams bm agent gd fuel board st evs now, ?_⟩
  unfold playLoop
  by_cases hc : gd.my_color = Color.WHITE
  · rw [if_pos hc]
    rcases ho : ownTurnStep st gd agent [] with e | ⟨b2, st2⟩
    · rfl
    · dsimp only
      rw [gameLoop_streams bm agent gd fuel b2 st2 evs now,
        ownTurnStep_streams st gd agent [] b2 st2 ho]
  · rw [if_neg hc]
    exact gameLoop_streams bm agent gd fuel [] st evs now

/-- C6 counterexample: a malformed feed line makes the opponent wait
raise JSONDecodeError, the exception of the json module — not the
StreamItemError class of exceptions.py, which nothing on this path ever
raises. -/
theorem c6_decode_error_kind_counterexample :
    waitForOpponentMove ⟨"g1", .WHITE, .BLACK⟩ 0 [(1, .malformed "not json")]
      = (.exc .JSONDecodeError, 1, []) ∧
    Exc.JSONDecodeError ≠ Exc.StreamItemError := by decide

/-- C6 amended: a malformed (non-JSON-decodable) line at the head of the
stream makes wait_for_opponent_move raise JSONDecodeError, and the game
loop propagates exactly that exception to its caller — it is neither
swallowed (board and client state are returned unchanged, no move is
returned) nor converted to the never-raised StreamItemError. -/
theorem c6_decode_error_propagates :
    ∀ (gd : GameData) (t : Nat) (s : String) (rest : List (Nat × Line))
      (bm : BoardModel) (agent : List String → String) (fuel : Nat)
      (board : List String) (st : ClientState) (now : Nat),
      waitForOpponentMove gd now ((t, Line.malformed s) :: rest)
        = (.exc .JSONDecodeError, t, rest) ∧
      gameLoop bm agent gd (fuel + 1) board st ((t, Line.malformed s) :: rest)
          now
        = (.exc .JSONDecodeError, board, st) := by
  intro gd t s rest bm agent fuel board st now
  have h1 : waitForOpponentMove gd now ((t, Line.malformed s) :: rest)
      = (.exc .JSONDecodeError, t, rest) := by
    simp [waitForOpponentMove, waitLoop, gameAbortTime]
  refine ⟨h1, ?_⟩
  simp only [gameLoop]
  rw [h1]

theorem stateQualifies_iff_newestMover (opp : Color) (moves : List String)
    (htok : moves.getLastD "" ≠ "") :
    stateQualifies opp moves = true ↔ newestMover moves = opp := by
  have hbe : (moves.getLastD "" == "") = false := beq_eq_false_iff_ne.2 htok
  have htok2 : ¬ moves.getLast?.getD "" = "" := by
    rw [← List.getLastD_eq_getLast?]
    exact htok
  rcases Nat.mod_two_eq_zero_or_one moves.length with hp | hp <;> cases opp <;>
    simp [stateQualifies, newestMover, white_moved, black_moved, pyTruthy,
      hp, hbe, htok2]

theorem waitLoop_stateStream (opp : Color) (t0 : Nat) :
    ∀ (ms : List (Nat × String)) (now : Nat),
      now - t0 < gameAbortTime →
      (∀ p ∈ ms, p.1 - t0 < gameAbortTime) →
      (∀ p ∈ ms, (pySplitSpace p.2).getLastD "" ≠ "") →
      (waitLoop opp t0 now
          (ms.map (fun p => (p.1, Line.item (Item.gameState p.2))))).1
        = match specOpponentToken opp (ms.map (fun p => pySplitSpace p.2)) with
          | some tok => Res.ok tok
          | none => Res.blocked := by
  intro ms
  induction ms with
  | nil =>
    intro now hnow _ _
    simp [waitLoop, hnow, specOpponentToken]
  | cons hd tl ih =>
    intro now hnow hts htoks
    rcases hd with ⟨t, s⟩
    have ht : t - t0 < gameAbortTime := hts (t, s) (List.mem_cons_self _ _)
    have htok : (pySplitSpace s).getLastD "" ≠ "" :=
      htoks (t, s) (List.mem_cons_self _ _)
    have hts2 : ∀ p ∈ tl, p.1 - t0 < gameAbortTime :=
      fun p hp => hts p (List.mem_cons_of_mem _ hp)
    have htoks2 : ∀ p ∈ tl, (pySplitSpace p.2).getLastD "" ≠ "" :=
      fun p hp => htoks p (List.mem_cons_of_mem _ hp)
    simp only [List.map_cons, waitLoop]
    rw [if_pos hnow]
    by_cases hq : stateQualifies opp (pySplitSpace s) = true
    · rw [if_pos hq]
      have hnm : newestMover (pySplitSpace s) = opp :=
        (stateQualifies_iff_newestMover opp (pySplitSpace s) htok).1 hq
      simp [specOpponentToken, hnm]
    · rw [if_neg hq]
      have hnm : ¬ newestMover (pySplitSpace s) = opp :=
        fun hc => hq ((stateQualifies_iff_newestMover opp
          (pySplitSpace s) htok).2 hc)
      rw [ih t ht hts2 htoks2]
      simp [specOpponentToken, hnm]

/-- C1: over any stream of gameState events whose arrival times lie
inside the abort budget and whose moves fields end in a nonempty token,
wait_for_opponent_move returns the last move token of the first event
whose move-list parity attributes the newest move to the opponent color
(odd length: WHITE just moved; even length: BLACK just moved), skipping —
never returning — every earlier event whose newest move belongs to the
own color; and in the concrete scenario where updates with moves e2e4 and
then e2e4 e7e5 arrive with opponent_color BLACK, the game loop receives
exactly the one token e7e5 and pushes it to the local board exactly
once. -/
theorem c1_opponent_parity_return :
    (∀ (gd : GameData) (t0 : Nat) (ms : List (Nat × String)),
      (∀ p ∈ ms, p.1 - t0 < gameAbortTime) →
      (∀ p ∈ ms, (pySplitSpace p.2).getLastD "" ≠ "") →
      (waitForOpponentMove gd t0
          (ms.map (fun p => (p.1, Line.item (Item.gameState p.2))))).1
        = match specOpponentToken gd.opponent_color
              (ms.map (fun p => pySplitSpace p.2)) with
          | some tok => Res.ok tok
          | none => Res.blocked) ∧
    gameLoop bmC1 (fun _ => "e2e4") ⟨"g1", .WHITE, .BLACK⟩ 1 ["e2e4"]
        ⟨[], 0, []⟩
        [(10, .item (.gameState "e2e4")), (20, .item (.gameState "e2e4 e7e5"))]
        0
      = (.ok .DRAW, ["e2e4", "e7e5"], ⟨[], 0, []⟩) := by
  constructor
  · intro gd t0 ms hts htoks
    exact waitLoop_stateStream gd.opponent_color t0 ms t0
      (by simp [gameAbortTime]) hts htoks
  · decide

/-- C1 witness: the two-update scenario — the echo of the own move e2e4
is skipped and the opponent reply e7e5 is the returned token. -/
theorem c1_opponent_parity_return_witness :
    (∀ p ∈ [((10 : Nat), "e2e4"), (20, "e2e4 e7e5")],
      p.1 - 0 < gameAbortTime) ∧
    (waitForOpponentMove ⟨"g1", .WHITE, .BLACK⟩ 0
        [(10, .item (.gameState "e2e4")),
         (20, .item (.gameState "e2e4 e7e5"))]).1
      = Res.ok "e7e5" := by
  refine ⟨by decide, ?_⟩
  have h := c1_opponent_parity_return.1 ⟨"g1", .WHITE, .BLACK⟩ 0
    [(10, "e2e4"), (20, "e2e4 e7e5")] (by decide) (by decide)
  exact h.trans (by decide)

theorem waitLoop_nonQual_timeout (opp : Color) (t0 : Nat) :
    ∀ (evs : List (Nat × Line)) (now : Nat),
      (∀ p ∈ evs, nonQual opp p.2 = true) →
      (t0 + gameAbortTime ≤ now ∨ ∃ p ∈ evs, t0 + gameAbortTime ≤ p.1) →
      ∃ n2 r2, waitLoop opp t0 now evs = (.exc .GameError, n2, r2) := by
  intro evs
  induction evs with
  | nil =>
    intro now _ hlate
    rcases hlate with hlate | ⟨p, hp, _⟩
    · refine ⟨now, [], ?_⟩
      simp only [waitLoop]
      rw [if_neg (by omega)]
    · cases hp
  | cons hd tl ih =>
    intro now hq hlate
    rcases hd with ⟨t, l⟩
    by_cases hlt : now - t0 < gameAbortTime
    · have hq_hd := hq (t, l) (List.mem_cons_self _ _)
      have hq_tl : ∀ p ∈ tl, nonQual opp p.2 = true :=
        fun p hp => hq p (List.mem_cons_of_mem _ hp)
      have hlate2 : t0 + gameAbortTime ≤ t ∨
          ∃ p ∈ tl, t0 + gameAbortTime ≤ p.1 := by
        rcases hlate with h | ⟨p, hp, hpt⟩
        · exact absurd h (by omega)
        · rcases List.mem_cons.1 hp with rfl | hp2
          · exact Or.inl hpt
          · exact Or.inr ⟨p, hp2, hpt⟩
      cases l with
      | empty =>
        simp only [waitLoop]
        rw [if_pos hlt]
        exact ih t hq_tl hlate2
      | malformed s => simp [nonQual] at hq_hd
      | item i =>
        cases i with
        | other =>
          simp only [waitLoop]
          rw [if_pos hlt]
          exact ih t hq_tl hlate2
        | gameState s =>
          have hsq : stateQualifies opp (pySplitSpace s) = false := by
            simpa [nonQual] using hq_hd
          simp only [waitLoop]
          rw [if_pos hlt]
          rw [if_neg (by simp [hsq])]
          exact ih t hq_tl hlate2
    · exact ⟨now, (t, l) :: tl, by simp only [waitLoop]; rw [if_neg hlt]⟩

/-- C2 amended: the opponent-move deadline is the 300-second
game-abort budget measured from the entry of each wait_for_opponent_move
call — fixed for the whole call, not re-measured at each poll inside it,
but re-measured at each new call.  If it elapses within a call with no
qualifying opponent-move update (every arriving line non-qualifying and
some line arriving at or after call start + 300), the call raises
GameError, the game loop terminates with that error, and no GameResult is
computed or reported (board and client state are returned untouched). -/
theorem c2_per_call_timeout_fatal :
    ∀ (bm : BoardModel) (agent : List String → String) (gd : GameData)
      (fuel : Nat) (board : List String) (st : ClientState)
      (evs : List (Nat × Line)) (now : Nat),
      (∀ p ∈ evs, nonQual gd.opponent_color p.2 = true) →
      (∃ p ∈ evs, now + gameAbortTime ≤ p.1) →
      gameLoop bm agent gd (fuel + 1) board st evs now
        = (.exc .GameError, board, st) := by
  intro bm agent gd fuel board st evs now hq hlate
  obtain ⟨n2, r2, hw⟩ :=
    waitLoop_nonQual_timeout gd.opponent_color now evs now hq (Or.inr hlate)
  simp only [gameLoop, waitForOpponentMove]
  rw [hw]

/-- C2 witness: a session silent except for one keep-alive 400 seconds
after the wait begins ends with GameError and no result. -/
theorem c2_per_call_timeout_fatal_witness :
    (∀ p ∈ [((400 : Nat), Line.empty)], nonQual Color.WHITE p.2 = true) ∧
    gameLoop bmC2w (fun _ => "e2e4") ⟨"g1", .BLACK, .WHITE⟩ 1 [] ⟨[], 0, []⟩
        [(400, Line.empty)] 0
      = (.exc .GameError, [], ⟨[], 0, []⟩) := by
  refine ⟨by decide, ?_⟩
  exact c2_per_call_timeout_fatal bmC2w (fun _ => "e2e4")
    ⟨"g1", .BLACK, .WHITE⟩ 0 [] ⟨[], 0, []⟩ [(400, Line.empty)] 0
    (by decide) ⟨(400, Line.empty), by simp, by decide⟩

/-- C2 counterexample: in a run where the second opponent reply arrives
500 seconds after session start (with a keep-alive at 310 seconds), the
code completes the session and computes the result DRAW, because each
wait_for_opponent_move call re-measures its 300-second budget from its
own entry; under the claim — a single budget measured once from session
start — the same run aborts with GameError (the InSessionAbort condition)
and never computes a result.  The claim is false of the code. -/
theorem c2_session_budget_counterexample :
    (playLoop bmC2 agentC2 ⟨"g1", .WHITE, .BLACK⟩ 5 ⟨[("g1", 0)], 1, []⟩
        evsC2 0).1 = .ok .DRAW ∧
    (claimPlayLoop bmC2 agentC2 ⟨"g1", .WHITE, .BLACK⟩ 0 5
        ⟨[("g1", 0)], 1, []⟩ evsC2 0).1 = .exc .GameError := by decide
